import Mathlib

/-!
Verification of `bookwalker_email_parser` (Python) against its specification.

The Python sources (`mail.py`, `order.py`, `__main__.py`) are shallowly
embedded below.  Conventions of the embedding:

* Python `str` is Lean `String`; bodies are processed as `List Char`
  obtained from `String.data`.  The regular expressions of the source are
  line-anchored (`re.MULTILINE` with `^...$`), so the body is split on
  `'\n'` and each fixed pattern is implemented as an executable matching
  function on a line's characters, reproducing the backtracking behaviour
  of the concrete patterns used (documented at each function).
  `\s` inside a line is modelled as horizontal whitespace
  (the patterns of this program are line-structured).
* Python exceptions (`ValueError` from `int`/`list.index`/`datetime`,
  `ZoneInfoNotFoundError`) are modelled with `Except String`.
* `logging` calls are not modelled, except for the `logger.error`
  consistency-check messages of `parse_order` and `parse_granted_coins`,
  which are returned as an explicit `List String` log component so that
  the advisory nature of those checks can be stated.
* `datetime.datetime` is modelled by `DateTime` below; a `tzinfo` is
  modelled by its UTC offset in minutes (`none` = naive).
-/

namespace Bookwalker

/-- `order.py` dataclass `Book`. -/
structure Book where
  title : String
  price : Int
deriving DecidableEq, Repr

/-- `order.py` dataclass `GrantedCoin`. -/
structure GrantedCoin where
  label : String
  coin : Int
deriving DecidableEq, Repr

/-- Model of Python `datetime.datetime`; the `tzinfo` is modelled by its
UTC offset in minutes (`none` for a naive datetime). -/
structure DateTime where
  year : Nat
  month : Nat
  day : Nat
  hour : Nat
  minute : Nat
  second : Nat
  microsecond : Nat
  offset : Option Int
deriving DecidableEq, Repr

/-- `order.py` dataclass `Payment`. -/
structure Payment where
  date : DateTime
  books : List Book
  discount : Int
  tax : Int
  coin_usage : Int
  granted_coins : List GrantedCoin
deriving DecidableEq, Repr

/-- `Payment.subtotal`: `sum(book.price for book in self.books)`. -/
def Payment.subtotal (p : Payment) : Int :=
  (p.books.map Book.price).sum

/-- `Payment.total_amount`: `self.subtotal() + self.discount + self.tax`. -/
def Payment.total_amount (p : Payment) : Int :=
  p.subtotal + p.discount + p.tax

/-- `Payment.total_payment`: `self.total_amount() + self.coin_usage`. -/
def Payment.total_payment (p : Payment) : Int :=
  p.total_amount + p.coin_usage

/-- `order.py` dataclass `Charge`. -/
structure Charge where
  date : DateTime
  item : String
  amount : Int
  coin : Int
  bonus_coin : Int
deriving DecidableEq, Repr

/-- The union `Payment | Charge` returned by `parse_order`. -/
inductive Order where
  | payment (p : Payment)
  | charge (c : Charge)
deriving DecidableEq, Repr

/-- `mail.py` `MailType = Literal["Payment", "PreOrderPayment", "PreOrder", "Other"]`. -/
inductive MailType where
  | Payment
  | PreOrderPayment
  | PreOrder
  | Other
deriving DecidableEq, Repr

/-- `mail.py` dataclass `Mail` (the fields used by `order.py`). -/
structure Mail where
  subject : String
  date : DateTime
  body : String
deriving DecidableEq, Repr

/-- Python `pat in s` substring test, on character lists. -/
def listContains (s pat : List Char) : Bool :=
  match s with
  | [] => pat.isPrefixOf []
  | _ :: rest => pat.isPrefixOf s || listContains rest pat

/-- Python `pat in s` substring test. -/
def strContains (s pat : String) : Bool :=
  listContains s.data pat.data

/-- `Mail.type` from `mail.py`: the four classification rules,
in source order. -/
def Mail.type (m : Mail) : MailType :=
  if strContains m.subject "Order Confirmation for Pre-ordered eBooks" then
    MailType.PreOrderPayment
  else if strContains m.subject "Order Confirmation"
      || strContains m.subject "お支払い完了のお知らせ" then
    MailType.Payment
  else if strContains m.subject "Pre-order Confirmation" then
    MailType.PreOrder
  else
    MailType.Other

/-! ## Field extraction primitives (`order.py`) -/

/-- Horizontal whitespace: Python `\s` as it occurs within a line — the
ASCII whitespace characters plus the no-break and ideographic spaces
(rarer Unicode space characters are not modelled). -/
def isWs (c : Char) : Bool :=
  c = ' ' || c = '\t' || c = '\r' || c = '\x0b' || c = '\x0c'
    || c = ' ' || c = '　'

/-- Split a body on `'\n'`, the line structure `re.MULTILINE` anchors on. -/
def splitLines : List Char → List (List Char)
  | [] => [[]]
  | c :: rest =>
    if c = '\n' then [] :: splitLines rest
    else
      match splitLines rest with
      | l :: ls => (c :: l) :: ls
      | [] => [[c]]

/-- Consume a literal prefix, or fail. -/
def dropPre (pat : List Char) (cs : List Char) : Option (List Char) :=
  if pat.isPrefixOf cs then some (cs.drop pat.length) else none

/-- Consume one expected character, or fail. -/
def expectCh (c : Char) : List Char → Option (List Char)
  | x :: rest => if x = c then some rest else none
  | [] => none

/-- Numeric value of a run of ASCII digits. -/
def digitsToNat (ds : List Char) : Nat :=
  ds.foldl (fun a c => 10 * a + (c.toNat - 48)) 0

/-- Python `int(text.replace(",", ""))` for `text` drawn from `[0-9,]+`:
`ValueError` when nothing but commas remains. -/
def intOfCommaDigits (ds : List Char) : Except String Int :=
  let digits := ds.filter (fun c => c ≠ ',')
  if digits.isEmpty then Except.error "ValueError: invalid literal for int"
  else Except.ok ((digitsToNat digits : Nat) : Int)

/-- `\s*(?P<value>.+)$` after a separator: greedy `\s*`, backtracking one
character when the rest of the line is whitespace only. -/
def valueAfterSep (cs : List Char) : Option (List Char) :=
  match cs with
  | [] => none
  | _ =>
    let v := cs.dropWhile isWs
    if v.isEmpty then some [cs.getLastD ' '] else some v

/-- `\s*[: or ：]\s*(?P<value>.+)$` with the given admissible separator
characters. -/
def matchSep (colons : List Char) (cs : List Char) : Option (List Char) :=
  match cs.dropWhile isWs with
  | [] => none
  | c :: rest => if colons.contains c then valueAfterSep rest else none

/-- The label patterns `parse_price_with_key` is called with:
a literal key (`pattern=None`), the key `Coin Usage` followed by
`[^：]*`, and the alternation `(Payment Total|Total Payment)`. -/
inductive PricePattern where
  | lit (key : String)
  | litAny (key : String)
  | alt (first second : String)

/-- `[^：]*\s*[:：]\s*(.+)$`: the trailing-qualifier form of the
`Coin Usage` label.  Greedy `[^：]*` means the rightmost viable separator
wins, exactly as Python's backtracking resolves it; the junk run cannot
cross a fullwidth colon. -/
def greedySep : List Char → Option (List Char)
  | [] => none
  | c :: rest =>
    if c = '：' then matchSep [':', '：'] (c :: rest)
    else (greedySep rest) <|> matchSep [':', '：'] (c :: rest)

/-- Match one line against `^■<pattern>\s*[:：]\s*(?P<value>.+)$`,
returning the value group. -/
def priceLineValue (pat : PricePattern) (line : List Char) : Option (List Char) :=
  match line with
  | '■' :: rest =>
    match pat with
    | .lit key =>
      match dropPre key.data rest with
      | some r => matchSep [':', '：'] r
      | none => none
    | .litAny key =>
      match dropPre key.data rest with
      | some r => greedySep r
      | none => none
    | .alt a b =>
      (match dropPre a.data rest with
       | some r => matchSep [':', '：'] r
       | none => none)
      <|>
      (match dropPre b.data rest with
       | some r => matchSep [':', '：'] r
       | none => none)
  | _ => none

/-- `parse_price`: `re.match(r"JPY\s*(?P<value>-?[0-9,]+)(\s*\(+Tax\))?", text)`;
on a regex mismatch logs and returns 0; on a match,
`int(value.replace(",", ""))`, which raises `ValueError` when no digit
remains (a value of commas only, with or without the minus sign). -/
def parse_price (text : List Char) : Except String Int :=
  match dropPre "JPY".data text with
  | none => Except.ok 0
  | some r =>
    let r1 := r.dropWhile isWs
    let signed := match r1 with
      | '-' :: rest => (true, rest)
      | _ => (false, r1)
    let run := signed.2.takeWhile (fun c => c.isDigit || c = ',')
    if run.isEmpty then Except.ok 0
    else
      let digits := run.filter (fun c => c ≠ ',')
      if digits.isEmpty then Except.error "ValueError: invalid literal for int"
      else
        let v : Int := (digitsToNat digits : Nat)
        Except.ok (if signed.1 then -v else v)

/-- `parse_price_with_key`: first line matching
`^■<pattern>\s*[:：]\s*(?P<value>.+)$`, its value fed to `parse_price`;
no matching line logs and returns 0. -/
def parse_price_with_key (pat : PricePattern) (body : String) : Except String Int :=
  match (splitLines body.data).findSome? (priceLineValue pat) with
  | some value => parse_price value
  | none => Except.ok 0

/-! ## `parse_books` -/

/-- One title alternative of the book pattern followed by
`\s*：\s*(?P<title>.+)$` (fullwidth separator only). -/
def tryKeyFw (key : String) (rest : List Char) : Option (List Char) :=
  match dropPre key.data rest with
  | some r => matchSep ['：'] r
  | none => none

/-- `^■(Title|Item|Title / Item)\s*：\s*(?P<title>.+)$`. -/
def bookTitleValue (line : List Char) : Option (List Char) :=
  match line with
  | '■' :: rest =>
    (tryKeyFw "Title" rest) <|> (tryKeyFw "Item" rest) <|> (tryKeyFw "Title / Item" rest)
  | _ => none

/-- `^■Price\s*：\s*(?P<price>.+)$`. -/
def bookPriceValue (line : List Char) : Option (List Char) :=
  match line with
  | '■' :: rest => tryKeyFw "Price" rest
  | _ => none

/-- `re.finditer` of the two-line book pattern: scan line pairs,
non-overlapping, in document order.  The fuel argument (instantiated
with the line count, one step consumes at least one line) keeps the
recursion structural. -/
def parse_books_lines : Nat → List (List Char) → Except String (List Book)
  | 0, _ => Except.ok []
  | _, [] => Except.ok []
  | _, [_] => Except.ok []
  | fuel + 1, l0 :: l1 :: rest2 =>
    match bookTitleValue l0, bookPriceValue l1 with
    | some t, some pv =>
      match parse_price pv with
      | Except.error e => Except.error e
      | Except.ok p =>
        match parse_books_lines fuel rest2 with
        | Except.error e => Except.error e
        | Except.ok bs => Except.ok (⟨⟨t⟩, p⟩ :: bs)
    | _, _ => parse_books_lines fuel (l1 :: rest2)

/-- `parse_books` from `order.py`. -/
def parse_books (body : String) : Except String (List Book) :=
  parse_books_lines (splitLines body.data).length (splitLines body.data)

/-! ## `parse_charge` -/

/-- Python `body.replace("\r\n", "\n")`. -/
def replaceCRLF : List Char → List Char
  | [] => []
  | '\r' :: '\n' :: rest => '\n' :: replaceCRLF rest
  | c :: rest => c :: replaceCRLF rest

/-- `^■Item\s*:\s*(?P<item>BOOK☆WALKER (期間限定)?コイン [0-9,]+円分).+$`,
returning the item group. -/
def chargeItemValue (line : List Char) : Option (List Char) := do
  let r ← dropPre "■Item".data line
  let r := r.dropWhile isWs
  let r ← expectCh ':' r
  let r := r.dropWhile isWs
  let r1 ← dropPre "BOOK☆WALKER ".data r
  let limited := match dropPre "期間限定".data r1 with
    | some x => (true, x)
    | none => (false, r1)
  let r3 ← dropPre "コイン ".data limited.2
  let run := r3.takeWhile (fun c => c.isDigit || c = ',')
  if run.isEmpty then none
  else do
    let r4 ← dropPre "円分".data (r3.drop run.length)
    if r4.isEmpty then none
    else
      some ("BOOK☆WALKER ".data
        ++ (if limited.1 then "期間限定".data else [])
        ++ "コイン ".data ++ run ++ "円分".data)

/-- `^■Amount\s*:\s*(?P<amount>[0-9]+)$`. -/
def chargeAmountValue (line : List Char) : Option (List Char) := do
  let r ← dropPre "■Amount".data line
  let r := r.dropWhile isWs
  let r ← expectCh ':' r
  let r := r.dropWhile isWs
  if r.isEmpty then none
  else if r.all Char.isDigit then some r else none

/-- `^■Bonus Coin\s*:\s*(?P<bonus_coin>[0-9,]+)$`. -/
def chargeBonusValue (line : List Char) : Option (List Char) := do
  let r ← dropPre "■Bonus Coin".data line
  let r := r.dropWhile isWs
  let r ← expectCh ':' r
  let r := r.dropWhile isWs
  if r.isEmpty then none
  else if r.all (fun c => c.isDigit || c = ',') then some r else none

/-- After the item line, `$\n*^` lets only empty lines intervene before
the `Amount` line, which must itself be followed by the `Bonus Coin`
line (the `Amount` line needs a trailing newline, so a successor line
must exist). -/
def chargeAfterItem : List (List Char) → Option (List Char × List Char)
  | [] => none
  | l :: rest =>
    if l.isEmpty then chargeAfterItem rest
    else
      match chargeAmountValue l, rest with
      | some a, l2 :: _ =>
        match chargeBonusValue l2 with
        | some b => some (a, b)
        | none => none
      | _, _ => none

/-- `re.search` of the three-line charge block: first item line whose
continuation matches. -/
def findChargeMatch : List (List Char) → Option (List Char × List Char × List Char)
  | [] => none
  | l :: rest =>
    match chargeItemValue l with
    | some item =>
      match chargeAfterItem rest with
      | some ab => some (item, ab.1, ab.2)
      | none => findChargeMatch rest
    | none => findChargeMatch rest

/-- `parse_charge` from `order.py`: the regex runs on
`mail.body.replace("\r\n", "\n")`, while the `Total Payment` field is
extracted from the original `mail.body`; the `date` is always
`mail.date` and the `coin` is always the `Total Payment` value. -/
def parse_charge (mail : Mail) : Except String (Option Charge) :=
  match findChargeMatch (splitLines (replaceCRLF mail.body.data)) with
  | none => Except.ok none
  | some (item, aTxt, bTxt) =>
    match intOfCommaDigits bTxt with
    | Except.error e => Except.error e
    | Except.ok bonus =>
      match parse_price_with_key (.lit "Total Payment") mail.body with
      | Except.error e => Except.error e
      | Except.ok total =>
        Except.ok (some ⟨mail.date, ⟨item⟩, ((digitsToNat aTxt : Nat) : Int), total, bonus⟩)

/-! ## `parse_purchased_date` -/

/-- Exactly `n` ASCII digits, accumulating their value. -/
def fixDigits : Nat → Nat → List Char → Option (Nat × List Char)
  | 0, acc, cs => some (acc, cs)
  | _ + 1, _, [] => none
  | n + 1, acc, c :: cs =>
    if c.isDigit then fixDigits n (10 * acc + (c.toNat - 48)) cs else none

/-- `^■Purchased Date\s*：\s*(yyyy)/(mm)/(dd) (hh):(mm) \((?P<timezone>.+)\)$`. -/
def purchasedDateGroups (line : List Char) :
    Option (Nat × Nat × Nat × Nat × Nat × List Char) := do
  let r ← dropPre "■Purchased Date".data line
  let r := r.dropWhile isWs
  let r ← expectCh '：' r
  let r := r.dropWhile isWs
  let (y, r) ← fixDigits 4 0 r
  let r ← expectCh '/' r
  let (mo, r) ← fixDigits 2 0 r
  let r ← expectCh '/' r
  let (d, r) ← fixDigits 2 0 r
  let r ← expectCh ' ' r
  let (h, r) ← fixDigits 2 0 r
  let r ← expectCh ':' r
  let (mi, r) ← fixDigits 2 0 r
  let r ← expectCh ' ' r
  let r ← expectCh '(' r
  match r.reverse with
  | ')' :: zrev => if zrev.isEmpty then none else some (y, mo, d, h, mi, zrev.reverse)
  | _ => none

/-- `TIMEZONE_DICT` from `order.py`. -/
def TIMEZONE_DICT : List (String × String) := [("JST", "Asia/Tokyo")]

/-- Models the IANA database lookup of `zoneinfo.ZoneInfo(key)`,
restricted to the zone keys this program's mails use, with each zone's
fixed UTC offset in minutes (Asia/Tokyo observes no daylight saving
time); an unknown key raises `ZoneInfoNotFoundError`. -/
def ZONE_OFFSETS : List (String × Int) := [("Asia/Tokyo", 540), ("UTC", 0)]

/-- `zoneinfo.ZoneInfo` on the model database. -/
def zoneInfo (key : String) : Except String Int :=
  match ZONE_OFFSETS.lookup key with
  | some off => Except.ok off
  | none => Except.error ("ZoneInfoNotFoundError: " ++ key)

/-- Gregorian leap year, as `datetime` uses. -/
def isLeapYear (y : Nat) : Bool :=
  (y % 4 = 0 && y % 100 ≠ 0) || y % 400 = 0

/-- Days in a month, as `datetime` validates. -/
def daysInMonth (y m : Nat) : Nat :=
  if m = 2 then (if isLeapYear y then 29 else 28)
  else if m = 4 || m = 6 || m = 9 || m = 11 then 30
  else 31

/-- The `datetime.datetime(...)` constructor: `ValueError` on any
out-of-range field. -/
def mkDatetime (y mo d h mi s us : Nat) (off : Option Int) : Except String DateTime :=
  if 1 ≤ y ∧ y ≤ 9999 ∧ 1 ≤ mo ∧ mo ≤ 12 ∧ 1 ≤ d ∧ d ≤ daysInMonth y mo
      ∧ h ≤ 23 ∧ mi ≤ 59 ∧ s ≤ 59 ∧ us ≤ 999999 then
    Except.ok ⟨y, mo, d, h, mi, s, us, off⟩
  else Except.error "ValueError: datetime field out of range"

/-- `parse_purchased_date` from `order.py`: first matching line, the
timezone abbreviation mapped through `TIMEZONE_DICT` (any other
abbreviation passed through verbatim as a zone key), `second=0`. -/
def parse_purchased_date (body : String) : Except String (Option DateTime) :=
  match (splitLines body.data).findSome? purchasedDateGroups with
  | none => Except.ok none
  | some (y, mo, d, h, mi, tz) =>
    let tzKey := match TIMEZONE_DICT.lookup (⟨tz⟩ : String) with
      | some v => v
      | none => (⟨tz⟩ : String)
    match zoneInfo tzKey with
    | Except.error e => Except.error e
    | Except.ok off =>
      match mkDatetime y mo d h mi 0 0 (some off) with
      | Except.error e => Except.error e
      | Except.ok dt => Except.ok (some dt)

/-! ## `parse_granted_coins` -/

/-- `MONTH_NAMES` from `order.py`: fixed 13-entry list (a leading empty
string, then the twelve English month names, so `index` is 1–12). -/
def MONTH_NAMES : List String :=
  ["", "January", "February", "March", "April", "May", "June",
   "July", "August", "September", "October", "November", "December"]

/-- Python `MONTH_NAMES.index(name)`: first position of `name`,
`ValueError` when absent. -/
def monthIndex (name : String) : Except String Nat :=
  match MONTH_NAMES.indexOf? name with
  | some i => Except.ok i
  | none => Except.error ("ValueError: " ++ name ++ " is not in list")

/-- Minimal decimal digits of a `Nat`, most significant first. -/
def natDigitsAux : Nat → Nat → List Char → List Char
  | 0, _, acc => acc
  | fuel + 1, n, acc =>
    if n < 10 then Nat.digitChar n :: acc
    else natDigitsAux fuel (n / 10) (Nat.digitChar (n % 10) :: acc)

/-- Python `f"{n:0wd}"`: decimal digits of `n`, zero padded on the left
to width `w` (wider than `w` when `n` does not fit). -/
def natPadChars (w n : Nat) : List Char :=
  let ds := natDigitsAux (n + 1) n []
  List.replicate (w - ds.length) '0' ++ ds

/-- `^■Granted Coin(\(s\))?\s*：\s*(?P<total>[0-9,]+) [Cc]oin(s|\(s\))$`,
returning the total group. -/
def grantedHeaderTotal (line : List Char) : Option (List Char) := do
  let r ← dropPre "■Granted Coin".data line
  let r := match dropPre "(s)".data r with
    | some x => x
    | none => r
  let r := r.dropWhile isWs
  let r ← expectCh '：' r
  let r := r.dropWhile isWs
  let run := r.takeWhile (fun c => c.isDigit || c = ',')
  if run.isEmpty then none
  else do
    let r2 ← expectCh ' ' (r.drop run.length)
    let r3 ← (dropPre "Coin".data r2) <|> (dropPre "coin".data r2)
    match r3 with
    | ['s'] => some run
    | ['(', 's', ')'] => some run
    | _ => none

/-- `^[^\S\n]*\*.+$` — a line the style-A block consumes. -/
def isStyleALine (line : List Char) : Bool :=
  match line.dropWhile isWs with
  | '*' :: rest => !rest.isEmpty
  | _ => false

/-- `^[^\S\n]*[-┗].+$` — a line the style-B block consumes. -/
def isStyleBLine (line : List Char) : Bool :=
  match line.dropWhile isWs with
  | c :: rest => (c = '-' || c = '┗') && !rest.isEmpty
  | _ => false

/-- Consecutive block lines after the header; each consumed line needs
its own trailing newline (`$\n` in the block pattern), so it must have a
successor line. -/
def takeBlock (p : List Char → Bool) : List (List Char) → List (List Char)
  | [] => []
  | l :: rest =>
    match rest with
    | [] => []
    | _ :: _ => if p l then l :: takeBlock p rest else []

/-- `[A-Z][a-z]+` month-name token. -/
def takeMonth (cs : List Char) : Option (List Char × List Char) :=
  match cs with
  | c :: rest =>
    if 'A' ≤ c ∧ c ≤ 'Z' then
      let low := rest.takeWhile (fun x => 'a' ≤ x && x ≤ 'z')
      if low.isEmpty then none
      else some (c :: low, rest.drop low.length)
    else none
  | [] => none

/-- `^\s\*Limited Time Coin valid through end of (?P<month>[A-Z][a-z]+),
(?P<year>[0-9]{4}) \(JST\) : (?P<coin>[0-9,]+) Coin\(s\)$` over one
block line (`re.finditer` over the captured block visits its lines;
non-matching lines are skipped): returns (month, year, coin-text). -/
def styleAItem (line : List Char) : Option (String × Nat × List Char) := do
  let r ← match line with
    | c :: '*' :: rest => if isWs c then some rest else none
    | _ => none
  let r ← dropPre "Limited Time Coin valid through end of ".data r
  let (monthCs, r) ← takeMonth r
  let r ← dropPre ", ".data r
  let (y, r) ← fixDigits 4 0 r
  let r ← dropPre " (JST) : ".data r
  let run := r.takeWhile (fun c => c.isDigit || c = ',')
  if run.isEmpty then none
  else if r.drop run.length = " Coin(s)".data then some (⟨monthCs⟩, y, run)
  else none

/-- `^\s[-┗] (?P<coin>[0-9,]+) coin(s|\(s\)) \(Valid (through|until the)
end of (?P<month>[A-Z][a-z]+), (?P<year>[0-9]{4}) JST\)\s*(?P<percent>[0-9]+)%$`
over one block line: returns (coin-text, month, year, percent-digits). -/
def styleBItem (line : List Char) : Option (List Char × String × Nat × List Char) := do
  let r ← match line with
    | c :: d :: rest =>
      if isWs c ∧ (d = '-' ∨ d = '┗') then some rest else none
    | _ => none
  let r0 ← expectCh ' ' r
  let run := r0.takeWhile (fun c => c.isDigit || c = ',')
  if run.isEmpty then none
  else do
    let r1 ← dropPre " coin".data (r0.drop run.length)
    let r2 ← (dropPre "s".data r1) <|> (dropPre "(s)".data r1)
    let r3 ← dropPre " (Valid ".data r2
    let r4 ← (dropPre "through".data r3) <|> (dropPre "until the".data r3)
    let r5 ← dropPre " end of ".data r4
    let (monthCs, r6) ← takeMonth r5
    let r7 ← dropPre ", ".data r6
    let (y, r8) ← fixDigits 4 0 r7
    let r9 ← dropPre " JST)".data r8
    let r10 := r9.dropWhile isWs
    let pct := r10.takeWhile Char.isDigit
    if pct.isEmpty then none
    else if r10.drop pct.length = ['%'] then some (run, ⟨monthCs⟩, y, pct)
    else none

/-- The groups of the granted-coin section match. -/
structure GrantedMatch where
  total : List Char
  items1 : List (List Char)
  items2 : List (List Char)
deriving DecidableEq, Repr

/-- `re.search` of the granted-coin section pattern: first header line
(which needs a trailing newline, hence a successor line), then the
optional block — style-A lines tried first, otherwise style-B lines. -/
def findGrantedMatch : List (List Char) → Option GrantedMatch
  | [] => none
  | l :: rest =>
    match rest with
    | [] => none
    | _ :: _ =>
      match grantedHeaderTotal l with
      | some total =>
        if (takeBlock isStyleALine rest).isEmpty then
          some ⟨total, [], takeBlock isStyleBLine rest⟩
        else some ⟨total, takeBlock isStyleALine rest, []⟩
      | none => findGrantedMatch rest

/-- Style-A loop body: `int(coin.replace(",", ""))`, then
`MONTH_NAMES.index(month)` (which raises `ValueError` on an unknown
name), then `GrantedCoin(label=f"limited {year:04d}/{month:02d}", ...)`. -/
def styleAEntry (it : String × Nat × List Char) : Except String GrantedCoin :=
  match intOfCommaDigits it.2.2 with
  | Except.error e => Except.error e
  | Except.ok coin =>
    match monthIndex it.1 with
    | Except.error e => Except.error e
    | Except.ok m =>
      Except.ok ⟨⟨"limited ".data ++ natPadChars 4 it.2.1 ++ '/' :: natPadChars 2 m⟩, coin⟩

/-- Style-B loop body: label
`f"limited {year:04d}/{month:02d} {percent}%"` with `percent = int(...)`
(leading zeros dropped). -/
def styleBEntry (it : List Char × String × Nat × List Char) : Except String GrantedCoin :=
  match intOfCommaDigits it.1 with
  | Except.error e => Except.error e
  | Except.ok coin =>
    match monthIndex it.2.1 with
    | Except.error e => Except.error e
    | Except.ok m =>
      Except.ok ⟨⟨"limited ".data ++ natPadChars 4 it.2.2.1 ++ '/' :: natPadChars 2 m
        ++ ' ' :: (Nat.repr (digitsToNat it.2.2.2)).data ++ ['%']⟩, coin⟩

/-- The style-A unlimited-coin inference:
`unlimited_coin = total_coins - sum(...)`, prepended
(`granted_coins.insert(0, ...)`) exactly when positive. -/
def styleACoins (total : Int) (limited : List GrantedCoin) : List GrantedCoin :=
  let unlimited := total - (limited.map GrantedCoin.coin).sum
  if 0 < unlimited then ⟨"unlimited", unlimited⟩ :: limited else limited

/-- `parse_granted_coins` from `order.py`.  The pair is the granted-coin
list and the `logger.error` messages of the style-B total check (the
only error-level logging here); Python exceptions (`int` on a comma-only
group, `MONTH_NAMES.index` on an unresolvable month name) are the
`Except.error` case. -/
def parse_granted_coins (body : String) : Except String (List GrantedCoin × List String) :=
  match findGrantedMatch (splitLines body.data) with
  | none => Except.ok ([], [])
  | some m =>
    match intOfCommaDigits m.total with
    | Except.error e => Except.error e
    | Except.ok total =>
      if !m.items1.isEmpty then
        match (m.items1.filterMap styleAItem).mapM styleAEntry with
        | Except.error e => Except.error e
        | Except.ok limited => Except.ok (styleACoins total limited, [])
      else if !m.items2.isEmpty then
        match (m.items2.filterMap styleBItem).mapM styleBEntry with
        | Except.error e => Except.error e
        | Except.ok coins =>
          let s := (coins.map GrantedCoin.coin).sum
          if s ≠ total then
            Except.ok (coins, ["Total granted coins are not equal: "
              ++ Int.repr total ++ " != " ++ Int.repr s])
          else Except.ok (coins, [])
      else Except.ok ([], [])

/-! ## `parse_order` -/

/-- The three advisory consistency checks of `parse_order`: each stated
value is extracted independently and compared with the derived value; a
mismatch produces only a `logger.error` message.  The constructed
`Payment` is not modified. -/
def check_payment (payment : Payment) (body : String) : Except String (List String) :=
  match parse_price_with_key (.lit "Subtotal") body with
  | Except.error e => Except.error e
  | Except.ok subtotal =>
    let l1 := if subtotal ≠ payment.subtotal then
        ["Subtotals are not equal: " ++ Int.repr subtotal ++ " != "
          ++ Int.repr payment.subtotal]
      else []
    match parse_price_with_key (.lit "Total Amount") body with
    | Except.error e => Except.error e
    | Except.ok ta =>
      let l2 := if ta ≠ payment.total_amount then
          ["Total Amounts not equal: " ++ Int.repr ta ++ " != "
            ++ Int.repr payment.total_amount]
        else []
      match parse_price_with_key (.alt "Payment Total" "Total Payment") body with
      | Except.error e => Except.error e
      | Except.ok tp =>
        let l3 := if tp ≠ payment.total_payment then
            ["Total Payments not equal: " ++ Int.repr tp ++ " != "
              ++ Int.repr payment.total_payment]
          else []
        Except.ok (l1 ++ l2 ++ l3)

/-- `parse_order` from `order.py`.  Returns the optional order together
with the `logger.error` messages of the advisory checks; Python
exceptions escaping `parse_order` are the `Except.error` case. -/
def parse_order (mail : Mail) : Except String (Option Order × List String) :=
  if mail.type = MailType.Payment ∨ mail.type = MailType.PreOrderPayment then
    match parse_books mail.body with
    | Except.error e => Except.error e
    | Except.ok books =>
      if books.isEmpty then
        match parse_charge mail with
        | Except.error e => Except.error e
        | Except.ok (some c) => Except.ok (some (Order.charge c), [])
        | Except.ok none => Except.ok (none, [])
      else
        match parse_purchased_date mail.body with
        | Except.error e => Except.error e
        | Except.ok pd =>
          match (if mail.type = MailType.Payment then
              parse_price_with_key (.lit "Coupon Discount") mail.body
            else Except.ok 0) with
          | Except.error e => Except.error e
          | Except.ok discount =>
            match parse_price_with_key (.lit "Tax") mail.body with
            | Except.error e => Except.error e
            | Except.ok tax =>
              match parse_price_with_key (.litAny "Coin Usage") mail.body with
              | Except.error e => Except.error e
              | Except.ok coin_usage =>
                match parse_granted_coins mail.body with
                | Except.error e => Except.error e
                | Except.ok granted =>
                  match check_payment
                      ⟨pd.getD mail.date, books, discount, tax, coin_usage, granted.1⟩
                      mail.body with
                  | Except.error e => Except.error e
                  | Except.ok checks =>
                    Except.ok
                      (some (Order.payment
                          ⟨pd.getD mail.date, books, discount, tax, coin_usage, granted.1⟩),
                        granted.2 ++ checks)
  else Except.ok (none, [])

/-! ## Theorems -/

/-- A substring test is monotone under taking a prefix of the pattern. -/
theorem listContains_mono {s pat pat' : List Char}
    (hp : pat' <+: pat) (h : listContains s pat = true) :
    listContains s pat' = true := by
  induction s with
  | nil =>
    simp only [listContains, List.isPrefixOf_iff_prefix] at h ⊢
    exact hp.trans h
  | cons c rest ih =>
    simp only [listContains, Bool.or_eq_true, List.isPrefixOf_iff_prefix] at h ⊢
    rcases h with h | h
    · exact Or.inl (hp.trans h)
    · exact Or.inr (ih h)

/-- The monotonicity transported to `strContains`. -/
theorem strContains_mono {s : String} {pat pat' : String}
    (hp : pat'.data <+: pat.data) (h : strContains s pat = true) :
    strContains s pat' = true :=
  listContains_mono hp h

/-- C2: `Mail.type` applies its four classification rules in strict
priority order: a subject containing
"Order Confirmation for Pre-ordered eBooks" — which therefore also
contains the Payment-test substring "Order Confirmation" — is classified
`PreOrderPayment` and never `Payment`; failing that rule, the
`Payment`, `PreOrder` and `Other` rules decide in order, so every
subject maps to exactly one of the four types. -/
theorem mail_type_priority (m : Mail) :
    (strContains m.subject "Order Confirmation for Pre-ordered eBooks" = true →
      strContains m.subject "Order Confirmation" = true ∧
      m.type = MailType.PreOrderPayment ∧ m.type ≠ MailType.Payment) ∧
    (strContains m.subject "Order Confirmation for Pre-ordered eBooks" = false →
      (strContains m.subject "Order Confirmation" = true ∨
        strContains m.subject "お支払い完了のお知らせ" = true) →
      m.type = MailType.Payment) ∧
    (strContains m.subject "Order Confirmation for Pre-ordered eBooks" = false →
      strContains m.subject "Order Confirmation" = false →
      strContains m.subject "お支払い完了のお知らせ" = false →
      strContains m.subject "Pre-order Confirmation" = true →
      m.type = MailType.PreOrder) ∧
    (strContains m.subject "Order Confirmation for Pre-ordered eBooks" = false →
      strContains m.subject "Order Confirmation" = false →
      strContains m.subject "お支払い完了のお知らせ" = false →
      strContains m.subject "Pre-order Confirmation" = false →
      m.type = MailType.Other) := by
  refine ⟨fun h => ⟨?_, ?_⟩, fun h1 h2 => ?_, fun h1 h2 h3 h4 => ?_, fun h1 h2 h3 h4 => ?_⟩
  · exact strContains_mono (by decide) h
  · unfold Mail.type
    rw [h]
    simp
  · unfold Mail.type
    rw [h1]
    rcases h2 with h2 | h2 <;> rw [h2] <;> simp
  · unfold Mail.type
    rw [h1, h2, h3, h4]
    simp
  · unfold Mail.type
    rw [h1, h2, h3, h4]
    simp

/-- Witness for C2 at the concrete pre-order-payment subject. -/
theorem mail_type_priority_witness :
    (Mail.mk "BOOK☆WALKER Order Confirmation for Pre-ordered eBooks"
        ⟨2024, 1, 1, 0, 0, 0, 0, some 540⟩ "").type = MailType.PreOrderPayment :=
  ((mail_type_priority _).1 (by decide)).2.1

/-- C6: for every `Payment` — any books, discount, tax and coin usage,
negative discounts and empty-books-with-tax included — the derived,
on-demand accessors satisfy `subtotal = Σ book.price`,
`total_amount = subtotal + discount + tax` and
`total_payment = total_amount + coin_usage`. -/
theorem payment_derived_totals (p : Payment) :
    p.subtotal = (p.books.map Book.price).sum ∧
    p.total_amount = p.subtotal + p.discount + p.tax ∧
    p.total_payment = p.total_amount + p.coin_usage ∧
    p.total_payment = (p.books.map Book.price).sum + p.discount + p.tax + p.coin_usage := by
  refine ⟨rfl, rfl, rfl, ?_⟩
  simp [Payment.total_payment, Payment.total_amount, Payment.subtotal]

/-- Inversion principle for `parse_order`: every successful result is
the no-order answer, a charge obtained from `parse_charge` on a
zero-book body, or the payment assembled from the computed fields. -/
theorem parse_order_inv (mail : Mail) (r : Option Order × List String)
    (h : parse_order mail = Except.ok r) :
    (r.1 = none) ∨
    (∃ c, r = (some (Order.charge c), []) ∧
      parse_books mail.body = Except.ok [] ∧
      parse_charge mail = Except.ok (some c)) ∨
    (∃ books pd discount tax cu granted checks,
      parse_books mail.body = Except.ok books ∧ books ≠ [] ∧
      parse_purchased_date mail.body = Except.ok pd ∧
      (if mail.type = MailType.Payment then
          parse_price_with_key (PricePattern.lit "Coupon Discount") mail.body
        else Except.ok 0) = Except.ok discount ∧
      parse_price_with_key (PricePattern.lit "Tax") mail.body = Except.ok tax ∧
      parse_price_with_key (PricePattern.litAny "Coin Usage") mail.body = Except.ok cu ∧
      parse_granted_coins mail.body = Except.ok granted ∧
      check_payment ⟨pd.getD mail.date, books, discount, tax, cu, granted.1⟩ mail.body
        = Except.ok checks ∧
      r = (some (Order.payment ⟨pd.getD mail.date, books, discount, tax, cu, granted.1⟩),
        granted.2 ++ checks)) := by
  unfold parse_order at h
  split at h
  · split at h
    · exact absurd h (by simp)
    · rename_i books hb
      split at h
      · rename_i hbe
        split at h
        · exact absurd h (by simp)
        · rename_i c hc
          refine Or.inr (Or.inl ⟨c, ?_, ?_, hc⟩)
          · simpa using h.symm
          · rw [hb, List.isEmpty_iff.mp hbe]
        · left
          have hr : (none, ([] : List String)) = r := by simpa using h
          rw [← hr]
      · rename_i hbe
        split at h
        · exact absurd h (by simp)
        rename_i pd hpd
        split at h
        · exact absurd h (by simp)
        rename_i discount hdisc
        split at h
        · exact absurd h (by simp)
        rename_i tax htax
        split at h
        · exact absurd h (by simp)
        rename_i cu hcu
        split at h
        · exact absurd h (by simp)
        rename_i granted hgr
        split at h
        · exact absurd h (by simp)
        rename_i checks hck
        refine Or.inr (Or.inr ⟨books, pd, discount, tax, cu, granted, checks,
          hb, ?_, hpd, hdisc, htax, hcu, hgr, hck, ?_⟩)
        · exact fun hnil => hbe (by simp [hnil])
        · simpa using h.symm
  · left
    have hr : (none, ([] : List String)) = r := by simpa using h
    rw [← hr]

/-- C1: for a mail classified `Payment` or `PreOrderPayment` whose body
yields zero matched book line-items, `parse_order` returns exactly what
the charge parse yields — a `Charge` when the fixed three-field block
matches, no order when it does not — and `parse_order` never returns a
`Payment` whose book list is empty. -/
theorem parse_order_zero_books (mail : Mail) :
    ((mail.type = MailType.Payment ∨ mail.type = MailType.PreOrderPayment) →
      parse_books mail.body = Except.ok [] →
      parse_order mail =
        match parse_charge mail with
        | Except.error e => Except.error e
        | Except.ok (some c) => Except.ok (some (Order.charge c), [])
        | Except.ok none => Except.ok (none, [])) ∧
    (∀ p logs, parse_order mail = Except.ok (some (Order.payment p), logs) →
      p.books ≠ []) := by
  constructor
  · intro h1 h2
    unfold parse_order
    rw [if_pos h1, h2]
    simp
  · intro p logs h
    rcases parse_order_inv mail _ h with h1 | ⟨c, hr, _, _⟩ |
      ⟨books, pd, discount, tax, cu, granted, checks, _, hne, _, _, _, _, _, _, hr⟩
    · simp at h1
    · simp at hr
    · simp only [Prod.mk.injEq, Option.some.injEq, Order.payment.injEq] at hr
      rw [hr.1]
      exact hne

/-- C9: a `Charge` always carries the mail's envelope date — the
purchased-date body field is never consulted on the charge path — and
its `coin` is the independently extracted Total Payment value; this
holds for `parse_charge` and for every charge returned by
`parse_order`. -/
theorem charge_envelope_date (mail : Mail) :
    (∀ c, parse_charge mail = Except.ok (some c) →
      c.date = mail.date ∧
      parse_price_with_key (PricePattern.lit "Total Payment") mail.body
        = Except.ok c.coin) ∧
    (∀ c logs, parse_order mail = Except.ok (some (Order.charge c), logs) →
      c.date = mail.date ∧
      parse_price_with_key (PricePattern.lit "Total Payment") mail.body
        = Except.ok c.coin) := by
  have hmain : ∀ c, parse_charge mail = Except.ok (some c) →
      c.date = mail.date ∧
      parse_price_with_key (PricePattern.lit "Total Payment") mail.body
        = Except.ok c.coin := by
    intro c h
    unfold parse_charge at h
    split at h
    · exact absurd h (by simp)
    · rename_i item aTxt bTxt _
      split at h
      · exact absurd h (by simp)
      · rename_i bonus hbonus
        split at h
        · exact absurd h (by simp)
        · rename_i total hpk
          have hc : c = ⟨mail.date, ⟨item⟩, ((digitsToNat aTxt : Nat) : Int), total, bonus⟩ := by
            simpa using h.symm
          rw [hc]
          exact ⟨rfl, hpk⟩
  refine ⟨hmain, ?_⟩
  intro c logs h
  rcases parse_order_inv mail _ h with h1 | ⟨c2, hr, _, hc2⟩ |
    ⟨books, pd, discount, tax, cu, granted, checks, _, _, _, _, _, _, _, _, hr⟩
  · simp at h1
  · simp only [Prod.mk.injEq, Option.some.injEq, Order.charge.injEq] at hr
    exact hr.1 ▸ hmain c2 hc2
  · simp at hr

/-- Concrete charge mail for C1's witness: subject classified `Payment`,
zero book line-items, a matching charge block. -/
def c1Mail : Mail :=
  ⟨"Order Confirmation", ⟨2024, 3, 6, 10, 30, 0, 0, some 540⟩,
    "■Item : BOOK☆WALKER コイン 1,000円分 ×1\n■Amount : 1\n■Bonus Coin : 100\n■Total Payment：JPY 1,000\n"⟩

/-- Witness for C1 at a concrete charge mail. -/
theorem parse_order_zero_books_witness :
    parse_order c1Mail =
      match parse_charge c1Mail with
      | Except.error e => Except.error e
      | Except.ok (some c) => Except.ok (some (Order.charge c), [])
      | Except.ok none => Except.ok (none, []) :=
  (parse_order_zero_books c1Mail).1 (Or.inl (by decide)) rfl

/-- Concrete charge mail for C9's witness, with a parsable
purchased-date line in the body that differs from the envelope date. -/
def c9Mail : Mail :=
  ⟨"Order Confirmation", ⟨2024, 3, 6, 10, 30, 0, 0, some 540⟩,
    "■Item : BOOK☆WALKER コイン 1,000円分 ×1\n■Amount : 1\n■Bonus Coin : 100\n■Total Payment：JPY 1,000\n■Purchased Date：2024/01/02 03:04 (JST)\n"⟩

/-- The charge C9's witness mail parses to. -/
def c9Charge : Charge :=
  ⟨⟨2024, 3, 6, 10, 30, 0, 0, some 540⟩, "BOOK☆WALKER コイン 1,000円分", 1, 1000, 100⟩

/-- Witness for C9: the parsed charge keeps the envelope date even
though the body's purchased-date line is parsable (and differs). -/
theorem charge_envelope_date_witness :
    (c9Charge.date = c9Mail.date ∧
      parse_price_with_key (PricePattern.lit "Total Payment") c9Mail.body
        = Except.ok c9Charge.coin) ∧
    parse_purchased_date c9Mail.body
      = Except.ok (some ⟨2024, 1, 2, 3, 4, 0, 0, some 540⟩) ∧
    (⟨2024, 1, 2, 3, 4, 0, 0, some 540⟩ : DateTime) ≠ c9Mail.date :=
  ⟨(charge_envelope_date c9Mail).1 c9Charge rfl, rfl, by decide⟩

/-- C5: the consistency checks are strictly observational.  On the
payment path `parse_order` returns exactly the `Payment` assembled from
the computed fields, with the check outcomes confined to the log
component; `check_payment` produces messages exactly for the
mismatching comparisons; and the style-B granted-coin list is returned
unmodified whether or not its sum matches the stated total. -/
theorem checks_observational :
    (∀ mail books pd discount tax cu granted checks,
      (Mail.type mail = MailType.Payment ∨ Mail.type mail = MailType.PreOrderPayment) →
      parse_books mail.body = Except.ok books →
      books ≠ [] →
      parse_purchased_date mail.body = Except.ok pd →
      (if Mail.type mail = MailType.Payment then
          parse_price_with_key (PricePattern.lit "Coupon Discount") mail.body
        else Except.ok 0) = Except.ok discount →
      parse_price_with_key (PricePattern.lit "Tax") mail.body = Except.ok tax →
      parse_price_with_key (PricePattern.litAny "Coin Usage") mail.body = Except.ok cu →
      parse_granted_coins mail.body = Except.ok granted →
      check_payment ⟨pd.getD mail.date, books, discount, tax, cu, granted.1⟩ mail.body
        = Except.ok checks →
      parse_order mail = Except.ok
        (some (Order.payment ⟨pd.getD mail.date, books, discount, tax, cu, granted.1⟩),
          granted.2 ++ checks)) ∧
    (∀ p body sub ta tp checks,
      parse_price_with_key (PricePattern.lit "Subtotal") body = Except.ok sub →
      parse_price_with_key (PricePattern.lit "Total Amount") body = Except.ok ta →
      parse_price_with_key (PricePattern.alt "Payment Total" "Total Payment") body
        = Except.ok tp →
      check_payment p body = Except.ok checks →
      (checks = [] ↔ (sub = p.subtotal ∧ ta = p.total_amount ∧ tp = p.total_payment))) ∧
    (∀ body m total coins,
      findGrantedMatch (splitLines body.data) = some m →
      m.items1 = [] →
      m.items2 ≠ [] →
      intOfCommaDigits m.total = Except.ok total →
      (m.items2.filterMap styleBItem).mapM styleBEntry = Except.ok coins →
      ∃ logs, parse_granted_coins body = Except.ok (coins, logs)) := by
  refine ⟨?_, ?_, ?_⟩
  · intro mail books pd discount tax cu granted checks h1 hb hne hpd hdisc htax hcu hgr hck
    have hbe : books.isEmpty = false := by
      cases books with
      | nil => exact absurd rfl hne
      | cons a l => rfl
    unfold parse_order
    rw [if_pos h1, hb]
    simp only [hbe, Bool.false_eq_true, if_false, hpd, hdisc, htax, hcu, hgr, hck]
  · intro p body sub ta tp checks hsub hta htp hck
    unfold check_payment at hck
    rw [hsub, hta, htp] at hck
    simp only [Except.ok.injEq] at hck
    subst hck
    constructor
    · intro hnil
      by_cases e1 : sub = p.subtotal <;> by_cases e2 : ta = p.total_amount <;>
        by_cases e3 : tp = p.total_payment <;> simp [e1, e2, e3] at hnil ⊢
    · rintro ⟨e1, e2, e3⟩
      simp [e1, e2, e3]
  · intro body m total coins hm h1 h2 ht hmap
    have hne2 : m.items2.isEmpty = false := by
      cases hml : m.items2 with
      | nil => exact absurd hml h2
      | cons a l => rfl
    have hne1 : m.items1.isEmpty = true := by rw [h1]; rfl
    unfold parse_granted_coins
    simp only [hm, ht, hne1, hne2, Bool.not_true, Bool.not_false, Bool.false_eq_true,
      if_false, if_true, hmap]
    by_cases hs : (coins.map GrantedCoin.coin).sum ≠ total
    · exact ⟨_, by rw [if_pos hs]⟩
    · exact ⟨_, by rw [if_neg hs]⟩

/-- Concrete payment mail for C5's witness: the stated Subtotal (999)
contradicts the derived subtotal (500). -/
def c5Mail : Mail :=
  ⟨"Order Confirmation", ⟨2024, 3, 6, 10, 30, 0, 0, some 540⟩,
    "■Title：本A\n■Price：JPY 500\n■Subtotal：JPY 999\n■Tax：JPY 50\n■Coin Usage：JPY 0\n■Total Amount：JPY 550\n■Total Payment：JPY 550\n"⟩

/-- Witness for C5: despite the subtotal mismatch, the payment built
from the computed values is returned, the mismatch appearing only as a
log message. -/
theorem checks_observational_witness :
    parse_order c5Mail = Except.ok
      (some (Order.payment ⟨⟨2024, 3, 6, 10, 30, 0, 0, some 540⟩,
        [⟨"本A", 500⟩], 0, 50, 0, []⟩),
        [] ++ ["Subtotals are not equal: 999 != 500"]) :=
  checks_observational.1 c5Mail [⟨"本A", 500⟩] none 0 50 0 ([], [])
    ["Subtotals are not equal: 999 != 500"]
    (Or.inl (by decide)) rfl (by simp) rfl rfl rfl rfl rfl rfl

/-- The style-A granted-coin body of the spec's concrete example:
stated total 500 with one limited entry of 100 coins for March 2024. -/
def c4Body : String :=
  "■Granted Coin(s)：500 Coin(s)\n *Limited Time Coin valid through end of March, 2024 (JST) : 100 Coin(s)\n"

/-- C4: the style-A assembly computes
`unlimited = stated_total − Σ limited` and prepends the synthesized
`GrantedCoin("unlimited", unlimited)` exactly when it is positive;
`parse_granted_coins` applies it to every style-A section; and the
concrete section stating total 500 with one limited 100-coin entry for
March 2024 yields `[("unlimited", 400), ("limited 2024/03", 100)]`. -/
theorem style_a_unlimited_prepend :
    (∀ body m total limited,
      findGrantedMatch (splitLines body.data) = some m →
      m.items1 ≠ [] →
      intOfCommaDigits m.total = Except.ok total →
      (m.items1.filterMap styleAItem).mapM styleAEntry = Except.ok limited →
      parse_granted_coins body = Except.ok (styleACoins total limited, [])) ∧
    (∀ total limited,
      (0 < total - (limited.map GrantedCoin.coin).sum →
        styleACoins total limited =
          ⟨"unlimited", total - (limited.map GrantedCoin.coin).sum⟩ :: limited) ∧
      (total - (limited.map GrantedCoin.coin).sum ≤ 0 →
        styleACoins total limited = limited)) ∧
    parse_granted_coins c4Body =
      Except.ok ([⟨"unlimited", 400⟩, ⟨"limited 2024/03", 100⟩], []) := by
  refine ⟨?_, ?_, rfl⟩
  · intro body m total limited hm hne ht hmap
    have hne1 : m.items1.isEmpty = false := by
      cases hml : m.items1 with
      | nil => exact absurd hml hne
      | cons a l => rfl
    unfold parse_granted_coins
    simp only [hm, ht, hne1, Bool.not_false, if_true, hmap]
  · intro total limited
    constructor
    · intro h
      unfold styleACoins
      rw [if_pos h]
    · intro h
      unfold styleACoins
      rw [if_neg (by omega)]

/-- Witness for C4 at the concrete numbers of the spec's example. -/
theorem style_a_unlimited_prepend_witness :
    styleACoins 500 [⟨"limited 2024/03", 100⟩]
      = [⟨"unlimited", 400⟩, ⟨"limited 2024/03", 100⟩] := by
  have h := (style_a_unlimited_prepend.2.1 500 [⟨"limited 2024/03", 100⟩]).1 (by decide)
  simpa using h

/-- `List.mapM` over `Except` fails when any element fails. -/
theorem exceptMapM_error_of_mem {α β : Type} {f : α → Except String β} {l : List α}
    {x : α} {e : String} (hx : x ∈ l) (hf : f x = Except.error e) :
    ∃ err, l.mapM f = Except.error err := by
  induction l with
  | nil => cases hx
  | cons a l ih =>
    rw [List.mapM_cons]
    cases hxa : f a with
    | error e2 => exact ⟨e2, rfl⟩
    | ok b =>
      rcases List.mem_cons.mp hx with h | h
      · subst h
        rw [hf] at hxa
        cases hxa
      · obtain ⟨err, herr⟩ := ih h
        refine ⟨err, ?_⟩
        show (l.mapM f >>= fun bs => pure (b :: bs)) = Except.error err
        rw [herr]
        rfl

/-- A granted-coin section match captures at most one bullet style: the
two blocks are alternatives of the same group. -/
theorem findGrantedMatch_excl (lines : List (List Char)) :
    ∀ m, findGrantedMatch lines = some m → m.items1 = [] ∨ m.items2 = [] := by
  induction lines with
  | nil => intro m h; cases h
  | cons l rest ih =>
    intro m h
    unfold findGrantedMatch at h
    split at h
    · cases h
    · split at h
      · split at h
        · cases h
          left
          rfl
        · cases h
          right
          rfl
      · exact ih m h

/-- C3 (amended): a granted-coin bullet line of either style that the
item pattern matches but whose month name does not resolve in
`MONTH_NAMES` makes `parse_granted_coins` fail with the modelled
`ValueError` (`MONTH_NAMES.index` is hit at order.py:290 for style A
and order.py:318 for style B) — the line is not dropped; and on the
payment path nothing catches the failure, so `parse_order` propagates
exactly that error. -/
theorem granted_unknown_month_raises :
    (∀ (body : String) (m : GrantedMatch) (line : List Char) (e : String),
      findGrantedMatch (splitLines body.data) = some m →
      ((∃ it, line ∈ m.items1 ∧ styleAItem line = some it ∧
          monthIndex it.1 = Except.error e) ∨
       (∃ it, line ∈ m.items2 ∧ styleBItem line = some it ∧
          monthIndex it.2.1 = Except.error e)) →
      ∃ msg, parse_granted_coins body = Except.error msg) ∧
    (∀ mail books pd discount tax cu msg,
      (Mail.type mail = MailType.Payment ∨ Mail.type mail = MailType.PreOrderPayment) →
      parse_books mail.body = Except.ok books →
      books ≠ [] →
      parse_purchased_date mail.body = Except.ok pd →
      (if Mail.type mail = MailType.Payment then
          parse_price_with_key (PricePattern.lit "Coupon Discount") mail.body
        else Except.ok 0) = Except.ok discount →
      parse_price_with_key (PricePattern.lit "Tax") mail.body = Except.ok tax →
      parse_price_with_key (PricePattern.litAny "Coin Usage") mail.body = Except.ok cu →
      parse_granted_coins mail.body = Except.error msg →
      parse_order mail = Except.error msg) := by
  constructor
  · intro body m line e hm hcase
    unfold parse_granted_coins
    simp only [hm]
    cases ht : intOfCommaDigits m.total with
    | error e2 => exact ⟨e2, rfl⟩
    | ok total =>
      rcases hcase with ⟨it, hline, hit, hmonth⟩ | ⟨it, hline, hit, hmonth⟩
      · have hne1 : m.items1.isEmpty = false := by
          cases hml : m.items1 with
          | nil => rw [hml] at hline; cases hline
          | cons a l => rfl
        simp only [hne1, Bool.not_false, if_true]
        have hmem : it ∈ m.items1.filterMap styleAItem :=
          List.mem_filterMap.mpr ⟨line, hline, hit⟩
        have hent : ∃ e3, styleAEntry it = Except.error e3 := by
          unfold styleAEntry
          cases hc : intOfCommaDigits it.2.2 with
          | error e3 => exact ⟨e3, rfl⟩
          | ok coin =>
            rw [hmonth]
            exact ⟨e, rfl⟩
        obtain ⟨e3, he3⟩ := hent
        obtain ⟨err, herr⟩ := exceptMapM_error_of_mem hmem he3
        rw [herr]
        exact ⟨err, rfl⟩
      · have hne2 : m.items2.isEmpty = false := by
          cases hml : m.items2 with
          | nil => rw [hml] at hline; cases hline
          | cons a l => rfl
        have hne1 : m.items1.isEmpty = true := by
          rcases findGrantedMatch_excl _ m hm with h1 | h2
          · rw [h1]; rfl
          · rw [h2] at hline; cases hline
        simp only [hne1, hne2, Bool.not_true, Bool.not_false, Bool.false_eq_true,
          if_false, if_true]
        have hmem : it ∈ m.items2.filterMap styleBItem :=
          List.mem_filterMap.mpr ⟨line, hline, hit⟩
        have hent : ∃ e3, styleBEntry it = Except.error e3 := by
          unfold styleBEntry
          cases hc : intOfCommaDigits it.1 with
          | error e3 => exact ⟨e3, rfl⟩
          | ok coin =>
            rw [hmonth]
            exact ⟨e, rfl⟩
        obtain ⟨e3, he3⟩ := hent
        obtain ⟨err, herr⟩ := exceptMapM_error_of_mem hmem he3
        rw [herr]
        exact ⟨err, rfl⟩
  · intro mail books pd discount tax cu msg h1 hb hne hpd hdisc htax hcu hgr
    have hbe : books.isEmpty = false := by
      cases books with
      | nil => exact absurd rfl hne
      | cons a l => rfl
    unfold parse_order
    rw [if_pos h1, hb]
    simp only [hbe, Bool.false_eq_true, if_false, hpd, hdisc, htax, hcu, hgr]

/-- Concrete mail for C3: a payment body whose style-A granted-coin
bullet carries the pattern-matching but unresolvable month name
`Janvier`. -/
def c3Mail : Mail :=
  ⟨"Order Confirmation", ⟨2024, 3, 6, 10, 30, 0, 0, some 540⟩,
    "■Title：本B\n■Price：JPY 100\n■Granted Coin：300 Coins\n *Limited Time Coin valid through end of Janvier, 2025 (JST) : 100 Coin(s)\n"⟩

/-- A style-B granted-coin body with the same unresolvable month
name. -/
def c3BodyB : String :=
  "■Granted Coin：300 Coins\n ┗ 100 coins (Valid through end of Janvier, 2025 JST)  10%\n"

/-- Counterexample for C3 as stated: on the `Janvier` mail the line is
not dropped and `parse_order` does not return normally — the modelled
`ValueError` of `MONTH_NAMES.index` escapes both functions. -/
theorem granted_unknown_month_counterexample :
    parse_granted_coins c3Mail.body = Except.error "ValueError: Janvier is not in list" ∧
    parse_order c3Mail = Except.error "ValueError: Janvier is not in list" :=
  ⟨rfl, rfl⟩

/-- Witness for the amended C3: the `Janvier` failure in a style-A
section, in a style-B section, and its propagation through
`parse_order`. -/
theorem granted_unknown_month_raises_witness :
    (∃ msg, parse_granted_coins c3Mail.body = Except.error msg) ∧
    (∃ msg, parse_granted_coins c3BodyB = Except.error msg) ∧
    parse_order c3Mail = Except.error "ValueError: Janvier is not in list" := by
  refine ⟨?_, ?_, ?_⟩
  · exact granted_unknown_month_raises.1 c3Mail.body
      ⟨"300".data,
        [" *Limited Time Coin valid through end of Janvier, 2025 (JST) : 100 Coin(s)".data],
        []⟩
      " *Limited Time Coin valid through end of Janvier, 2025 (JST) : 100 Coin(s)".data
      "ValueError: Janvier is not in list" rfl
      (Or.inl ⟨("Janvier", 2025, "100".data), List.mem_singleton.mpr rfl, rfl, rfl⟩)
  · exact granted_unknown_month_raises.1 c3BodyB
      ⟨"300".data, [],
        [" ┗ 100 coins (Valid through end of Janvier, 2025 JST)  10%".data]⟩
      " ┗ 100 coins (Valid through end of Janvier, 2025 JST)  10%".data
      "ValueError: Janvier is not in list" rfl
      (Or.inr ⟨("100".data, "Janvier", 2025, "10".data), List.mem_singleton.mpr rfl, rfl, rfl⟩)
  · exact granted_unknown_month_raises.2 c3Mail [⟨"本B", 100⟩] none 0 0 0
      "ValueError: Janvier is not in list"
      (Or.inl (by decide)) rfl (by simp) rfl rfl rfl rfl rfl

/-! ## `normalize_title` -/

/-- `REPLACE_TABLE`: wave dash (U+301C) to fullwidth tilde (U+FF5E). -/
def replaceTableChar (c : Char) : Char :=
  if c = '〜' then '～' else c

/-- Models Python `unicodedata.normalize("NFKC", ...)` character-wise,
covering the compatibility characters this program's titles contain:
the fullwidth ASCII block (U+FF01–U+FF5E), the ideographic space, and
the halfwidth middle-dot and corner-bracket forms; all other characters
are left unchanged. -/
def nfkcChar (c : Char) : Char :=
  if 0xFF01 ≤ c.toNat ∧ c.toNat ≤ 0xFF5E then Char.ofNat (c.toNat - 0xFF01 + 0x21)
  else if c = '　' then ' '
  else if c = '･' then '・'
  else if c = '｢' then '「'
  else if c = '｣' then '」'
  else c

/-- `FULLWIDTH_TO_HALFWIDTH_TABLE`: the 94 fullwidth ASCII characters
from `！` to their halfwidth equivalents, plus the ideographic space and
the middle-dot and corner brackets to their halfwidth forms. -/
def fwToHw (c : Char) : Char :=
  if 0xFF01 ≤ c.toNat ∧ c.toNat ≤ 0xFF5E then Char.ofNat (c.toNat - 0xFF01 + 0x21)
  else if c = '　' then ' '
  else if c = '・' then '･'
  else if c = '「' then '｢'
  else if c = '」' then '｣'
  else c

/-- `re.sub(r"【[^【】]*(電子|特典|%OFF)[^【】]*】", "", title)`: remove
every lenticular-bracket span (no nested brackets) whose contents
mention one of the three markers; scanning position by position, the
replacement is not rescanned.  Fuel is the character count. -/
def removeMarkedAux : Nat → List Char → List Char
  | 0, cs => cs
  | _ + 1, [] => []
  | fuel + 1, c :: rest =>
    if c = '【' then
      let inner := rest.takeWhile (fun x => x != '【' && x != '】')
      match rest.drop inner.length with
      | '】' :: after =>
        if listContains inner "電子".data || listContains inner "特典".data
            || listContains inner "%OFF".data then
          removeMarkedAux fuel after
        else c :: removeMarkedAux fuel rest
      | _ => c :: removeMarkedAux fuel rest
    else c :: removeMarkedAux fuel rest

/-- The group `(期間限定)?([^【】]+セット)` against a bracket's inner
text: the optional `期間限定` prefix is consumed greedily, falling back
to the whole text, and the capture must be at least one character
followed by `セット`. -/
def setGroup (inner : List Char) : Option (List Char) :=
  let ok := fun (cs : List Char) =>
    "セット".data.isSuffixOf cs && decide ("セット".data.length + 1 ≤ cs.length)
  match dropPre "期間限定".data inner with
  | some rest2 => if ok rest2 then some rest2 else if ok inner then some inner else none
  | none => if ok inner then some inner else none

/-- `re.sub(r"【(期間限定)?([^【】]+セット)】", r" \g<2>", title)`. -/
def setSubAux : Nat → List Char → List Char
  | 0, cs => cs
  | _ + 1, [] => []
  | fuel + 1, c :: rest =>
    if c = '【' then
      let inner := rest.takeWhile (fun x => x != '【' && x != '】')
      match rest.drop inner.length with
      | '】' :: after =>
        match setGroup inner with
        | some g => ' ' :: (g ++ setSubAux fuel after)
        | none => c :: setSubAux fuel rest
      | _ => c :: setSubAux fuel rest
    else c :: setSubAux fuel rest

/-- Python whitespace (`str.strip`, `\s`): the ASCII whitespace
characters plus the no-break and ideographic spaces occurring in this
program's domain. -/
def isPyWs (c : Char) : Bool :=
  c = ' ' || c = '\t' || c = '\n' || c = '\r' || c = '\x0b' || c = '\x0c'
    || c = ' ' || c = '　'

/-- `title.strip()`. -/
def pyStrip (cs : List Char) : List Char :=
  ((cs.dropWhile isPyWs).reverse.dropWhile isPyWs).reverse

/-- `re.sub(r"\(([0-9]+)\)$", r" \g<1>", title)`: a trailing
parenthesized integer becomes a space and the digits. -/
def subTrailingParenNum (cs : List Char) : List Char :=
  match cs.reverse with
  | ')' :: rest =>
    let ds := rest.takeWhile Char.isDigit
    if ds.isEmpty then cs
    else
      match rest.drop ds.length with
      | '(' :: pre => pre.reverse ++ ' ' :: ds.reverse
      | _ => cs
  | _ => cs

/-- `re.sub(r": ([0-9]+)$", r" \g<1>", title)`. -/
def subTrailingColonNum (cs : List Char) : List Char :=
  let rev := cs.reverse
  let ds := rev.takeWhile Char.isDigit
  if ds.isEmpty then cs
  else
    match rev.drop ds.length with
    | ' ' :: ':' :: pre => pre.reverse ++ ' ' :: ds.reverse
    | _ => cs

/-- `re.sub(r"第?([0-9]+)巻$", r"\g<1>", title)`. -/
def subTrailingVolume (cs : List Char) : List Char :=
  match cs.reverse with
  | '巻' :: rest =>
    let ds := rest.takeWhile Char.isDigit
    if ds.isEmpty then cs
    else
      let pre := rest.drop ds.length
      (match pre with
        | '第' :: p => p
        | p => p).reverse ++ ds.reverse
  | _ => cs

/-- `re.sub(r"\s+", " ", title)`: collapse each whitespace run. -/
def collapseWsAux : Bool → List Char → List Char
  | _, [] => []
  | prevWs, c :: rest =>
    if isPyWs c then
      if prevWs then collapseWsAux true rest
      else ' ' :: collapseWsAux true rest
    else c :: collapseWsAux false rest

/-- `re.sub(r"\.{3}", "…", title)`: each leftmost run of three periods
becomes one ellipsis. -/
def ellipsisSub : List Char → List Char
  | '.' :: '.' :: '.' :: rest => '…' :: ellipsisSub rest
  | c :: rest => c :: ellipsisSub rest
  | [] => []

/-- `normalize_title` from `order.py`: the ordered eleven-step
pipeline. -/
def normalize_title (title : String) : String :=
  let t1 := title.data.map replaceTableChar
  let t2 := t1.map nfkcChar
  let t3 := t2.map fwToHw
  let t4 := removeMarkedAux t3.length t3
  let t5 := setSubAux t4.length t4
  let t6 := pyStrip t5
  let t7 := subTrailingParenNum t6
  let t8 := subTrailingColonNum t7
  let t9 := subTrailingVolume t8
  let t10 := collapseWsAux false t9
  ⟨ellipsisSub t10⟩

/-- `normalize_book_titles` from `__main__.py`: rebuild the payment
with each book's title normalized. -/
def normalize_book_titles (payment : Payment) : Payment :=
  ⟨payment.date,
    payment.books.map (fun book => ⟨normalize_title book.title, book.price⟩),
    payment.discount, payment.tax, payment.coin_usage,
    payment.granted_coins⟩

/-- C8: `normalize_title` on `【電子限定】サンプル(3)` removes the
electronic-limited bracket span, rewrites the trailing `(3)` to ` 3`,
and returns exactly `サンプル 3`. -/
theorem normalize_title_electronic_limited :
    normalize_title "【電子限定】サンプル(3)" = "サンプル 3" := rfl

/-- C10: `normalize_book_titles` rewrites only book titles — date,
discount, tax, coin usage and granted coins are unchanged, the book
count and order are preserved, every price is kept, and each title is
replaced by its normalization. -/
theorem normalize_book_titles_frame (p : Payment) :
    (normalize_book_titles p).date = p.date ∧
    (normalize_book_titles p).discount = p.discount ∧
    (normalize_book_titles p).tax = p.tax ∧
    (normalize_book_titles p).coin_usage = p.coin_usage ∧
    (normalize_book_titles p).granted_coins = p.granted_coins ∧
    (normalize_book_titles p).books.length = p.books.length ∧
    (normalize_book_titles p).books.map Book.price = p.books.map Book.price ∧
    (normalize_book_titles p).books.map Book.title
      = p.books.map (fun b => normalize_title b.title) := by
  refine ⟨rfl, rfl, rfl, rfl, rfl, ?_, ?_, ?_⟩ <;> simp [normalize_book_titles]

/-! ## JSON serialization (`save_orders_as_json` / `load_orders_from_json`)

Modelled at the JSON-value level: `json.dump`/`json.load` (an external
library) are taken as faithful text transport, so the round trip is the
composition of `dataclasses.asdict` + the datetime encoder with
`dacite.from_dict` (strict, with the `datetime.fromisoformat` hook). -/

/-- The JSON values this program writes: strings, integers, arrays and
objects. -/
inductive Json where
  | str (s : String)
  | num (n : Int)
  | arr (xs : List Json)
  | obj (fields : List (String × Json))

/-- `datetime.isoformat()`: `YYYY-MM-DDTHH:MM:SS`, the microseconds as
`.ffffff` only when nonzero, and the UTC offset as `±HH:MM` for an
aware datetime. -/
def offsetChars (off : Int) : List Char :=
  (if off < 0 then ['-'] else ['+'])
    ++ (natPadChars 2 (off.natAbs / 60) ++ ':' :: natPadChars 2 (off.natAbs % 60))

/-- The microsecond part: `.ffffff` only when nonzero. -/
def microChars (us : Nat) : List Char :=
  if us = 0 then [] else '.' :: natPadChars 6 us

/-- The offset suffix: absent for a naive datetime. -/
def offTail : Option Int → List Char
  | none => []
  | some off => offsetChars off

/-- The characters of `datetime.isoformat()`. -/
def isoChars (d : DateTime) : List Char :=
  natPadChars 4 d.year
    ++ '-' :: (natPadChars 2 d.month
    ++ '-' :: (natPadChars 2 d.day
    ++ 'T' :: (natPadChars 2 d.hour
    ++ ':' :: (natPadChars 2 d.minute
    ++ ':' :: (natPadChars 2 d.second
    ++ (microChars d.microsecond ++ offTail d.offset))))))

/-- `OrdersJSONEncoder.default`: a datetime serializes as
`o.isoformat()`. -/
def isoformat (d : DateTime) : String := ⟨isoChars d⟩

/-- The `±HH:MM` offset suffix accepted back by
`datetime.fromisoformat` (the form `isoformat` emits); an in-range
offset builds the fixed-offset timezone, an absent suffix a naive
datetime. -/
def parseOffsetPart : List Char → Option (Option Int)
  | [] => some none
  | c :: r =>
    if c = '+' ∨ c = '-' then
      match fixDigits 2 0 r with
      | some (hh, r2) =>
        match r2 with
        | ':' :: r3 =>
          match fixDigits 2 0 r3 with
          | some (mm, r4) =>
            if r4.isEmpty then
              some (some (if c = '-' then -((hh * 60 + mm : Nat) : Int)
                else ((hh * 60 + mm : Nat) : Int)))
            else none
          | none => none
        | _ => none
      | none => none
    else none

/-- The optional `.ffffff` fraction (the six-digit form `isoformat`
emits). -/
def parseMicro : List Char → Option (Nat × List Char)
  | '.' :: r => fixDigits 6 0 r
  | r => some (0, r)

/-- The fields of an isoformat string, in the shape `isoformat`
emits. -/
def parseIsoChars (cs : List Char) :
    Option (Nat × Nat × Nat × Nat × Nat × Nat × Nat × Option Int) := do
  let (y, r) ← fixDigits 4 0 cs
  let r ← expectCh '-' r
  let (mo, r) ← fixDigits 2 0 r
  let r ← expectCh '-' r
  let (d, r) ← fixDigits 2 0 r
  let r ← expectCh 'T' r
  let (h, r) ← fixDigits 2 0 r
  let r ← expectCh ':' r
  let (mi, r) ← fixDigits 2 0 r
  let r ← expectCh ':' r
  let (sec, r) ← fixDigits 2 0 r
  let (us, r) ← parseMicro r
  let off ← parseOffsetPart r
  pure (y, mo, d, h, mi, sec, us, off)

/-- `datetime.fromisoformat` on the characters: parse, then the
timezone range check and the `datetime` constructor validation. -/
def fromIsoChars (cs : List Char) : Except String DateTime :=
  match parseIsoChars cs with
  | none => Except.error "ValueError: Invalid isoformat string"
  | some (y, mo, d, h, mi, sec, us, off) =>
    match off with
    | some o =>
      if 1440 ≤ o.natAbs then
        Except.error "ValueError: offset must be strictly between -timedelta(hours=24) and timedelta(hours=24)"
      else mkDatetime y mo d h mi sec us off
    | none => mkDatetime y mo d h mi sec us none

/-- `datetime.fromisoformat` (the dacite type hook). -/
def fromisoformat (s : String) : Except String DateTime :=
  fromIsoChars s.data

/-- `dataclasses.asdict` of a `Book`. -/
def Book.toJson (b : Book) : Json :=
  Json.obj [("title", Json.str b.title), ("price", Json.num b.price)]

/-- `dataclasses.asdict` of a `GrantedCoin`. -/
def GrantedCoin.toJson (g : GrantedCoin) : Json :=
  Json.obj [("label", Json.str g.label), ("coin", Json.num g.coin)]

/-- `dataclasses.asdict` of an order, with the `OrdersJSONEncoder`
datetime hook. -/
def Order.toJson : Order → Json
  | Order.payment p =>
    Json.obj [("date", Json.str (isoformat p.date)),
      ("books", Json.arr (p.books.map Book.toJson)),
      ("discount", Json.num p.discount), ("tax", Json.num p.tax),
      ("coin_usage", Json.num p.coin_usage),
      ("granted_coins", Json.arr (p.granted_coins.map GrantedCoin.toJson))]
  | Order.charge c =>
    Json.obj [("date", Json.str (isoformat c.date)), ("item", Json.str c.item),
      ("amount", Json.num c.amount), ("coin", Json.num c.coin),
      ("bonus_coin", Json.num c.bonus_coin)]

/-- The date of either order kind. -/
def Order.date : Order → DateTime
  | Order.payment p => p.date
  | Order.charge c => c.date

/-- `save_orders_as_json`, at the JSON-value level: the array
`json.dump` writes. -/
def save_orders_as_json (orders : List Order) : Json :=
  Json.arr (orders.map Order.toJson)

/-- `dacite` strict mode: every key of the data must be a field of the
data class. -/
def strictKeys (fields : List (String × Json)) (allowed : List String) :
    Except String Unit :=
  if fields.all (fun kv => allowed.contains kv.1) then Except.ok ()
  else Except.error "dacite: unexpected keys"

/-- `dacite` field access. -/
def getField (fields : List (String × Json)) (k : String) : Except String Json :=
  match fields.lookup k with
  | some v => Except.ok v
  | none => Except.error ("dacite: missing value for field " ++ k)

/-- `dacite` string field. -/
def asStr : Json → Except String String
  | Json.str s => Except.ok s
  | _ => Except.error "dacite: wrong type"

/-- `dacite` integer field. -/
def asInt : Json → Except String Int
  | Json.num n => Except.ok n
  | _ => Except.error "dacite: wrong type"

/-- `dacite` list field. -/
def asArr : Json → Except String (List Json)
  | Json.arr xs => Except.ok xs
  | _ => Except.error "dacite: wrong type"

/-- `dacite.from_dict` for `Book`. -/
def to_book (j : Json) : Except String Book :=
  match j with
  | Json.obj fields =>
    match strictKeys fields ["title", "price"] with
    | Except.error e => Except.error e
    | Except.ok _ =>
      match getField fields "title" with
      | Except.error e => Except.error e
      | Except.ok tj =>
        match asStr tj with
        | Except.error e => Except.error e
        | Except.ok t =>
          match getField fields "price" with
          | Except.error e => Except.error e
          | Except.ok pj =>
            match asInt pj with
            | Except.error e => Except.error e
            | Except.ok p => Except.ok ⟨t, p⟩
  | _ => Except.error "dacite: not an object"

/-- `dacite.from_dict` for `GrantedCoin`. -/
def to_granted (j : Json) : Except String GrantedCoin :=
  match j with
  | Json.obj fields =>
    match strictKeys fields ["label", "coin"] with
    | Except.error e => Except.error e
    | Except.ok _ =>
      match getField fields "label" with
      | Except.error e => Except.error e
      | Except.ok lj =>
        match asStr lj with
        | Except.error e => Except.error e
        | Except.ok l =>
          match getField fields "coin" with
          | Except.error e => Except.error e
          | Except.ok cj =>
            match asInt cj with
            | Except.error e => Except.error e
            | Except.ok cv => Except.ok ⟨l, cv⟩
  | _ => Except.error "dacite: not an object"

/-- `dacite.from_dict` for `Payment` (strict, datetime hook), field by
field in dataclass order. -/
def to_payment (fields : List (String × Json)) : Except String Payment :=
  match strictKeys fields
      ["date", "books", "discount", "tax", "coin_usage", "granted_coins"] with
  | Except.error e => Except.error e
  | Except.ok _ =>
    match getField fields "date" with
    | Except.error e => Except.error e
    | Except.ok dj =>
      match asStr dj with
      | Except.error e => Except.error e
      | Except.ok ds =>
        match fromisoformat ds with
        | Except.error e => Except.error e
        | Except.ok date =>
          match getField fields "books" with
          | Except.error e => Except.error e
          | Except.ok bj =>
            match asArr bj with
            | Except.error e => Except.error e
            | Except.ok bl =>
              match bl.mapM to_book with
              | Except.error e => Except.error e
              | Except.ok books =>
                match getField fields "discount" with
                | Except.error e => Except.error e
                | Except.ok dcj =>
                  match asInt dcj with
                  | Except.error e => Except.error e
                  | Except.ok discount =>
                    match getField fields "tax" with
                    | Except.error e => Except.error e
                    | Except.ok txj =>
                      match asInt txj with
                      | Except.error e => Except.error e
                      | Except.ok tax =>
                        match getField fields "coin_usage" with
                        | Except.error e => Except.error e
                        | Except.ok cuj =>
                          match asInt cuj with
                          | Except.error e => Except.error e
                          | Except.ok cu =>
                            match getField fields "granted_coins" with
                            | Except.error e => Except.error e
                            | Except.ok gj =>
                              match asArr gj with
                              | Except.error e => Except.error e
                              | Except.ok gl =>
                                match gl.mapM to_granted with
                                | Except.error e => Except.error e
                                | Except.ok granted =>
                                  Except.ok ⟨date, books, discount, tax, cu, granted⟩

/-- `dacite.from_dict` for `Charge`. -/
def to_charge (fields : List (String × Json)) : Except String Charge :=
  match strictKeys fields ["date", "item", "amount", "coin", "bonus_coin"] with
  | Except.error e => Except.error e
  | Except.ok _ =>
    match getField fields "date" with
    | Except.error e => Except.error e
    | Except.ok dj =>
      match asStr dj with
      | Except.error e => Except.error e
      | Except.ok ds =>
        match fromisoformat ds with
        | Except.error e => Except.error e
        | Except.ok date =>
          match getField fields "item" with
          | Except.error e => Except.error e
          | Except.ok ij =>
            match asStr ij with
            | Except.error e => Except.error e
            | Except.ok item =>
              match getField fields "amount" with
              | Except.error e => Except.error e
              | Except.ok aj =>
                match asInt aj with
                | Except.error e => Except.error e
                | Except.ok amount =>
                  match getField fields "coin" with
                  | Except.error e => Except.error e
                  | Except.ok cj =>
                    match asInt cj with
                    | Except.error e => Except.error e
                    | Except.ok coin =>
                      match getField fields "bonus_coin" with
                      | Except.error e => Except.error e
                      | Except.ok bj =>
                        match asInt bj with
                        | Except.error e => Except.error e
                        | Except.ok bonus =>
                          Except.ok ⟨date, item, amount, coin, bonus⟩

/-- `to_order` from `order.py`: the Payment/Charge discrimination is by
presence of the `books` key. -/
def to_order (j : Json) : Except String Order :=
  match j with
  | Json.obj fields =>
    if (fields.lookup "books").isSome then
      match to_payment fields with
      | Except.error e => Except.error e
      | Except.ok p => Except.ok (Order.payment p)
    else
      match to_charge fields with
      | Except.error e => Except.error e
      | Except.ok c => Except.ok (Order.charge c)
  | _ => Except.error "dacite: not an object"

/-- `load_orders_from_json`, at the JSON-value level. -/
def load_orders_from_json (j : Json) : Except String (List Order) :=
  match j with
  | Json.arr xs => xs.mapM to_order
  | _ => Except.error "not a list"

/-- The field ranges `datetime.datetime` guarantees for every value it
constructs (and `timezone` for its offset). -/
def ValidDateTime (d : DateTime) : Prop :=
  1 ≤ d.year ∧ d.year ≤ 9999 ∧ 1 ≤ d.month ∧ d.month ≤ 12 ∧
  1 ≤ d.day ∧ d.day ≤ daysInMonth d.year d.month ∧ d.hour ≤ 23 ∧
  d.minute ≤ 59 ∧ d.second ≤ 59 ∧ d.microsecond ≤ 999999 ∧
  (∀ off ∈ d.offset, off.natAbs ≤ 1439)

/-! ### Digit string lemmas for the isoformat round trip -/

/-- Folding digit accumulation from `a` shifts by a power of ten. -/
theorem digits_foldl_shift (ds : List Char) (a : Nat) :
    ds.foldl (fun x c => 10 * x + (c.toNat - 48)) a
      = a * 10 ^ ds.length + digitsToNat ds := by
  induction ds generalizing a with
  | nil => simp [digitsToNat]
  | cons c t ih =>
    have h0 : digitsToNat (c :: t) = (c.toNat - 48) * 10 ^ t.length + digitsToNat t := by
      show List.foldl _ _ (c :: t) = _
      rw [List.foldl_cons, ih]
      simp
    rw [List.foldl_cons, ih, h0]
    rw [List.length_cons, pow_succ]
    ring

/-- `natDigitsAux` produces a nonempty digit string whose value is `n`,
of minimal length. -/
theorem natDigitsAux_spec :
    ∀ (fuel n : Nat) (acc : List Char), n < fuel →
    ∃ ds, natDigitsAux fuel n acc = ds ++ acc ∧ 0 < ds.length ∧
      (∀ c ∈ ds, c.isDigit = true) ∧ digitsToNat ds = n ∧ n < 10 ^ ds.length ∧
      (ds.length = 1 ∨ 10 ^ (ds.length - 1) ≤ n) := by
  intro fuel
  induction fuel with
  | zero => intro n acc h; omega
  | succ fuel ih =>
    intro n acc h
    unfold natDigitsAux
    by_cases h10 : n < 10
    · rw [if_pos h10]
      refine ⟨[Nat.digitChar n], rfl, by simp, ?_, ?_, by simpa using h10, Or.inl rfl⟩
      · intro c hc
        simp only [List.mem_singleton] at hc
        subst hc
        interval_cases n <;> decide
      · interval_cases n <;> decide
    · rw [if_neg h10]
      have hdiv : n / 10 < fuel := by omega
      obtain ⟨ds, hds, hlen, hdig, hval, hub, hlb⟩ :=
        ih (n / 10) (Nat.digitChar (n % 10) :: acc) hdiv
      have hmod : (Nat.digitChar (n % 10)).isDigit = true ∧
          (Nat.digitChar (n % 10)).toNat - 48 = n % 10 := by
        have : n % 10 < 10 := Nat.mod_lt n (by omega)
        interval_cases hm : n % 10 <;> simp_all <;> decide
      refine ⟨ds ++ [Nat.digitChar (n % 10)], ?_, by simp, ?_, ?_, ?_, ?_⟩
      · rw [hds]
        simp
      · intro c hc
        rcases List.mem_append.mp hc with hc | hc
        · exact hdig c hc
        · simp only [List.mem_singleton] at hc
          subst hc
          exact hmod.1
      · show List.foldl _ _ _ = n
        rw [List.foldl_append]
        show (10 * digitsToNat ds + _) = n
        rw [hval, hmod.2]
        omega
      · rw [List.length_append, List.length_singleton, pow_succ]
        have : n ≤ 10 * (n / 10) + 9 := by omega
        have h2 : 10 * (n / 10) + 9 < 10 ^ ds.length * 10 := by omega
        omega
      · right
        rw [List.length_append, List.length_singleton]
        simp only [Nat.add_sub_cancel]
        rcases hlb with h1 | h1
        · rw [h1]
          simpa using h10
        · have h2 : 10 ^ (ds.length - 1) * 10 ≤ (n / 10) * 10 :=
            Nat.mul_le_mul_right 10 h1
          have h3 : 10 ^ (ds.length - 1) * 10 = 10 ^ ds.length := by
            rw [← pow_succ]
            congr 1
            omega
          have h4 : (n / 10) * 10 ≤ n := by omega
          omega

/-- `natPadChars w n` for `n < 10^w` is exactly `w` digit characters
with value `n`. -/
theorem natPadChars_spec (w n : Nat) (hw : 1 ≤ w) (hn : n < 10 ^ w) :
    (natPadChars w n).length = w ∧ (∀ c ∈ natPadChars w n, c.isDigit = true) ∧
    digitsToNat (natPadChars w n) = n := by
  obtain ⟨ds, hds, hlen, hdig, hval, hub, hlb⟩ := natDigitsAux_spec (n + 1) n [] (by omega)
  rw [List.append_nil] at hds
  unfold natPadChars
  rw [hds]
  have hlew : ds.length ≤ w := by
    by_contra hgt
    push_neg at hgt
    rcases hlb with h1 | h1
    · omega
    · have h2 : 10 ^ w ≤ 10 ^ (ds.length - 1) :=
        Nat.pow_le_pow_right (by omega) (by omega)
      omega
  refine ⟨?_, ?_, ?_⟩
  · simp only [List.length_append, List.length_replicate]
    omega
  · intro c hc
    rcases List.mem_append.mp hc with hc | hc
    · rw [List.eq_of_mem_replicate hc]
      decide
    · exact hdig c hc
  · show List.foldl _ _ _ = n
    rw [List.foldl_append]
    have hz : ∀ k, List.foldl (fun x c => 10 * x + (c.toNat - 48)) 0
        (List.replicate k '0') = 0 := by
      intro k
      induction k with
      | zero => rfl
      | succ k ihk => rw [List.replicate_succ, List.foldl_cons]; simpa using ihk
    rw [hz]
    exact hval

/-- `fixDigits` consumes an exact-length digit string. -/
theorem fixDigits_exact (ds : List Char) :
    ∀ (acc : Nat) (rest : List Char), (∀ c ∈ ds, c.isDigit = true) →
    fixDigits ds.length acc (ds ++ rest)
      = some (ds.foldl (fun x c => 10 * x + (c.toNat - 48)) acc, rest) := by
  induction ds with
  | nil => intro acc rest _; rfl
  | cons c t ih =>
    intro acc rest h
    rw [List.length_cons, List.cons_append]
    show (if c.isDigit then fixDigits t.length (10 * acc + (c.toNat - 48)) (t ++ rest)
      else none) = _
    rw [if_pos (h c (List.mem_cons_self c t)),
      ih _ _ (fun x hx => h x (List.mem_cons_of_mem c hx))]
    rfl

/-- Parsing back a zero-padded field recovers its value. -/
theorem fixDigits_pad (w n acc : Nat) (rest : List Char)
    (hw : 1 ≤ w) (hn : n < 10 ^ w) :
    fixDigits w acc (natPadChars w n ++ rest) = some (acc * 10 ^ w + n, rest) := by
  obtain ⟨hl, hd, hv⟩ := natPadChars_spec w n hw hn
  have h := fixDigits_exact (natPadChars w n) acc rest hd
  rw [hl] at h
  rw [h, digits_foldl_shift, hl, hv]

/-- `fixDigits_pad` from the zero accumulator. -/
theorem fixDigits_pad0 (w n : Nat) (hw : 1 ≤ w) (hn : n < 10 ^ w) (rest : List Char) :
    fixDigits w 0 (natPadChars w n ++ rest) = some (n, rest) := by
  rw [fixDigits_pad w n 0 rest hw hn]
  norm_num

/-- A matching expected character is consumed. -/
theorem expectCh_same (c : Char) (r : List Char) : expectCh c (c :: r) = some r := by
  simp [expectCh]

/-- `offsetChars` starts with the sign character. -/
theorem offsetChars_eq (o : Int) :
    offsetChars o = (if o < 0 then '-' else '+')
      :: (natPadChars 2 (o.natAbs / 60) ++ ':' :: natPadChars 2 (o.natAbs % 60)) := by
  unfold offsetChars
  by_cases hneg : o < 0
  · rw [if_pos hneg, if_pos hneg]
    rfl
  · rw [if_neg hneg, if_neg hneg]
    rfl

/-- `parseMicro` inverts the emitted microsecond part. -/
theorem parseMicro_emit (us : Nat) (hus : us ≤ 999999) (off : Option Int) :
    parseMicro (microChars us ++ offTail off) = some (us, offTail off) := by
  by_cases h0 : us = 0
  · subst h0
    show parseMicro ([] ++ offTail off) = some (0, offTail off)
    rw [List.nil_append]
    cases off with
    | none => rfl
    | some o =>
      show parseMicro (offsetChars o) = some (0, offsetChars o)
      rw [offsetChars_eq]
      by_cases hneg : o < 0
      · rw [if_pos hneg]
        rfl
      · rw [if_neg hneg]
        rfl
  · show parseMicro ((if us = 0 then [] else '.' :: natPadChars 6 us) ++ offTail off) = _
    rw [if_neg h0, List.cons_append]
    show fixDigits 6 0 (natPadChars 6 us ++ offTail off) = _
    exact fixDigits_pad0 6 us (by norm_num) (by omega) _

/-- `parseOffsetPart` inverts the emitted offset suffix. -/
theorem parseOffset_emit (off : Option Int) (hoff : ∀ o ∈ off, o.natAbs ≤ 1439) :
    parseOffsetPart (offTail off) = some off := by
  cases off with
  | none => rfl
  | some o =>
    have hb : o.natAbs ≤ 1439 := hoff o rfl
    have hh : o.natAbs / 60 < 100 := by omega
    have hm : o.natAbs % 60 < 100 := by omega
    show parseOffsetPart (offsetChars o) = _
    rw [offsetChars_eq]
    show (if (if o < 0 then '-' else '+') = '+' ∨ (if o < 0 then '-' else '+') = '-' then _
      else none) = _
    rw [if_pos (by by_cases hneg : o < 0 <;> simp [hneg])]
    rw [fixDigits_pad0 2 _ (by norm_num) hh]
    show (match ':' :: natPadChars 2 (o.natAbs % 60) with
      | ':' :: r3 => _
      | _ => none) = _
    rw [show natPadChars 2 (o.natAbs % 60) = natPadChars 2 (o.natAbs % 60) ++ [] by simp]
    show (match fixDigits 2 0 (natPadChars 2 (o.natAbs % 60) ++ []) with
      | some (mm, r4) => _
      | none => none) = _
    rw [fixDigits_pad0 2 _ (by norm_num) hm]
    show some (some (if (if o < 0 then '-' else '+') = '-'
      then -((o.natAbs / 60 * 60 + o.natAbs % 60 : Nat) : Int)
      else ((o.natAbs / 60 * 60 + o.natAbs % 60 : Nat) : Int))) = some (some o)
    by_cases hneg : o < 0
    · rw [if_pos hneg, if_pos (by rfl)]
      have : ((o.natAbs / 60 * 60 + o.natAbs % 60 : Nat) : Int) = (o.natAbs : Int) := by
        have hdm : o.natAbs / 60 * 60 + o.natAbs % 60 = o.natAbs := by omega
        exact_mod_cast congrArg (Nat.cast : Nat → Int) hdm
      rw [this]
      congr 1
      congr 1
      omega
    · rw [if_neg hneg, if_neg (by decide)]
      have : ((o.natAbs / 60 * 60 + o.natAbs % 60 : Nat) : Int) = (o.natAbs : Int) := by
        have hdm : o.natAbs / 60 * 60 + o.natAbs % 60 = o.natAbs := by omega
        exact_mod_cast congrArg (Nat.cast : Nat → Int) hdm
      rw [this]
      congr 1
      congr 1
      omega

/-- `some` feeds its value straight to the monadic continuation. -/
theorem optBind_some {α β : Type} (a : α) (f : α → Option β) :
    (some a >>= f) = f a := rfl

/-- No month has more than 31 days. -/
theorem daysInMonth_le (y m : Nat) : daysInMonth y m ≤ 31 := by
  unfold daysInMonth
  repeat' split
  all_goals omega

/-- The isoformat round trip: parsing back an emitted isoformat string
recovers every field of a datetime whose fields are in the ranges
`datetime` guarantees. -/
theorem fromisoformat_isoformat (d : DateTime) (h : ValidDateTime d) :
    fromisoformat (isoformat d) = Except.ok d := by
  obtain ⟨h1, h2, h3, h4, h5, h6, h7, h8, h9, h10, h11⟩ := h
  have hp : parseIsoChars (isoChars d)
      = some (d.year, d.month, d.day, d.hour, d.minute, d.second,
          d.microsecond, d.offset) := by
    unfold parseIsoChars isoChars
    rw [fixDigits_pad0 4 d.year (by norm_num) (by omega)]
    simp only [optBind_some, expectCh_same]
    rw [fixDigits_pad0 2 d.month (by norm_num) (by omega)]
    simp only [optBind_some, expectCh_same]
    rw [fixDigits_pad0 2 d.day (by norm_num)
      (by have := daysInMonth_le d.year d.month; omega)]
    simp only [optBind_some, expectCh_same]
    rw [fixDigits_pad0 2 d.hour (by norm_num) (by omega)]
    simp only [optBind_some, expectCh_same]
    rw [fixDigits_pad0 2 d.minute (by norm_num) (by omega)]
    simp only [optBind_some, expectCh_same]
    rw [fixDigits_pad0 2 d.second (by norm_num) (by omega)]
    simp only [optBind_some, expectCh_same]
    rw [parseMicro_emit d.microsecond h10 d.offset]
    simp only [optBind_some]
    rw [parseOffset_emit d.offset h11]
    rfl
  show fromIsoChars (isoChars d) = Except.ok d
  unfold fromIsoChars
  rw [hp]
  cases hoff : d.offset with
  | none =>
    show mkDatetime d.year d.month d.day d.hour d.minute d.second d.microsecond none
      = Except.ok d
    unfold mkDatetime
    rw [if_pos (by refine ⟨h1, h2, h3, h4, h5, h6, h7, h8, h9, h10⟩)]
    rw [← hoff]
  | some o =>
    have hb : o.natAbs ≤ 1439 := by
      rw [hoff] at h11
      exact h11 o rfl
    show (if 1440 ≤ o.natAbs then _ else
        mkDatetime d.year d.month d.day d.hour d.minute d.second d.microsecond (some o))
      = Except.ok d
    rw [if_neg (by omega)]
    unfold mkDatetime
    rw [if_pos (by refine ⟨h1, h2, h3, h4, h5, h6, h7, h8, h9, h10⟩)]
    rw [← hoff]

/-- Decoding an encoded `Book` is the identity. -/
theorem to_book_toJson (b : Book) : to_book (Book.toJson b) = Except.ok b := rfl

/-- Decoding an encoded `GrantedCoin` is the identity. -/
theorem to_granted_toJson (g : GrantedCoin) :
    to_granted (GrantedCoin.toJson g) = Except.ok g := rfl

/-- `mapM` of a decoder over an encoder's `map` is the identity when
each element round-trips. -/
theorem mapM_map_ok {α : Type} (xs : List α) (f : α → Json) (g : Json → Except String α)
    (h : ∀ x ∈ xs, g (f x) = Except.ok x) : (xs.map f).mapM g = Except.ok xs := by
  induction xs with
  | nil => rfl
  | cons a l ih =>
    rw [List.map_cons, List.mapM_cons, h a (List.mem_cons_self a l)]
    show ((l.map f).mapM g >>= fun bs => pure (a :: bs)) = Except.ok (a :: l)
    rw [ih (fun x hx => h x (List.mem_cons_of_mem a hx))]
    rfl

/-- Decoding an encoded order is the identity, for the datetime ranges
`datetime` guarantees. -/
theorem to_order_toJson (o : Order) (h : ValidDateTime o.date) :
    to_order (Order.toJson o) = Except.ok o := by
  cases o with
  | charge c =>
    have hfd : fromisoformat (isoformat c.date) = Except.ok c.date :=
      fromisoformat_isoformat c.date h
    simp +decide [to_order, Order.toJson, to_charge, strictKeys, getField, asStr,
      asInt, List.lookup, hfd]
  | payment p =>
    have hfd : fromisoformat (isoformat p.date) = Except.ok p.date :=
      fromisoformat_isoformat p.date h
    have hb : (p.books.map Book.toJson).mapM to_book = Except.ok p.books :=
      mapM_map_ok _ _ _ (fun b _ => to_book_toJson b)
    have hg : (p.granted_coins.map GrantedCoin.toJson).mapM to_granted
        = Except.ok p.granted_coins :=
      mapM_map_ok _ _ _ (fun g _ => to_granted_toJson g)
    have hb' : List.mapM.loop to_book (p.books.map Book.toJson) [] = Except.ok p.books := hb
    have hg' : List.mapM.loop to_granted (p.granted_coins.map GrantedCoin.toJson) []
        = Except.ok p.granted_coins := hg
    simp +decide [to_order, Order.toJson, to_payment, strictKeys, getField, asStr,
      asInt, asArr, List.lookup, hfd, hb, hg, hb', hg']

/-- C7: serializing any list of orders with `save_orders_as_json` and
deserializing with `load_orders_from_json` reproduces the list
element-for-element, field-for-field, dates at full precision; and the
read-back discrimination between `Payment` and `Charge` is by presence
of the `books` key. -/
theorem orders_json_roundtrip (orders : List Order)
    (h : ∀ o ∈ orders, ValidDateTime o.date) :
    load_orders_from_json (save_orders_as_json orders) = Except.ok orders ∧
    (∀ fields, (fields.lookup "books").isSome = true →
      to_order (Json.obj fields) =
        match to_payment fields with
        | Except.error e => Except.error e
        | Except.ok p => Except.ok (Order.payment p)) ∧
    (∀ fields, (fields.lookup "books").isSome = false →
      to_order (Json.obj fields) =
        match to_charge fields with
        | Except.error e => Except.error e
        | Except.ok c => Except.ok (Order.charge c)) := by
  refine ⟨?_, ?_, ?_⟩
  · show (orders.map Order.toJson).mapM to_order = Except.ok orders
    exact mapM_map_ok orders Order.toJson to_order
      (fun o ho => to_order_toJson o (h o ho))
  · intro fields hkey
    simp only [to_order]
    rw [if_pos hkey]
  · intro fields hkey
    simp only [to_order]
    rw [if_neg (by rw [hkey]; exact Bool.false_ne_true)]

/-- Concrete order list for C7's witness: one payment and one charge. -/
def c7Orders : List Order :=
  [Order.payment ⟨⟨2024, 3, 5, 12, 34, 0, 0, some 540⟩, [⟨"本A", 500⟩], -100, 50, 0,
      [⟨"unlimited", 400⟩]⟩,
    Order.charge ⟨⟨2024, 3, 6, 10, 30, 5, 0, some 540⟩, "BOOK☆WALKER コイン 1,000円分",
      1, 1000, 100⟩]

/-- A sufficient scalar condition for `ValidDateTime` with an aware
offset. -/
theorem validDateTime_some (y mo dd hh mi s us : Nat) (off : Int)
    (h : 1 ≤ y ∧ y ≤ 9999 ∧ 1 ≤ mo ∧ mo ≤ 12 ∧ 1 ≤ dd ∧ dd ≤ daysInMonth y mo
      ∧ hh ≤ 23 ∧ mi ≤ 59 ∧ s ≤ 59 ∧ us ≤ 999999 ∧ off.natAbs ≤ 1439) :
    ValidDateTime ⟨y, mo, dd, hh, mi, s, us, some off⟩ := by
  obtain ⟨h1, h2, h3, h4, h5, h6, h7, h8, h9, h10, h11⟩ := h
  refine ⟨h1, h2, h3, h4, h5, h6, h7, h8, h9, h10, ?_⟩
  intro o ho
  cases ho
  exact h11

/-- Witness for C7 on the one-payment-one-charge list. -/
theorem orders_json_roundtrip_witness :
    load_orders_from_json (save_orders_as_json c7Orders) = Except.ok c7Orders :=
  (orders_json_roundtrip c7Orders (by
    intro o ho
    simp only [c7Orders, List.mem_cons, List.not_mem_nil, or_false] at ho
    rcases ho with rfl | rfl
    · exact validDateTime_some _ _ _ _ _ _ _ _ (by decide)
    · exact validDateTime_some _ _ _ _ _ _ _ _ (by decide))).1

end Bookwalker
